import Mathlib

/-!
Verification of the widget production/distribution optimization notebook
(`optimization101/Modeling_Session_1/modeling1_colab.ipynb`).

The notebook builds two gurobipy models over fixed sets of production
facilities and distribution locations:

* `m = gp.Model('widgets')` — the base model.  In the notebook as committed,
  the cells that were supposed to add its variables, constraints and
  objective are empty, so `m` is an empty model (the recorded solver log
  shows `0 rows, 0 columns` and `Optimal objective 0`).
* `m2 = gp.Model('widgets2')` — the expansion model.  Its shipment
  variables `x` (with objective coefficients `transp_cost` and the default
  lower bound 0) and the `meet_demand` constraints are present in the code;
  the production-capacity constraints, the binary `xprod` variables, the
  Birmingham expansion constraints and the at-most-one constraint are
  described in the surrounding text and formulation but their code cells
  are empty, so those parts are modelled from the spec below.

All coefficients are rationals (the spec treats solver arithmetic as exact
real arithmetic); sums over the fixed index sets are literal finite sums,
mirroring `gp.quicksum` over the hard-coded Python lists.
-/

/-- The set `P` of production facilities (`production` in the notebook). -/
inductive P where
  | Baltimore | Cleveland | LittleRock | Birmingham | Charleston
deriving DecidableEq, Repr, Fintype

/-- The set `D` of distribution locations (`distribution` in the notebook). -/
inductive D where
  | Columbia | Indianapolis | Lexington | Nashville | Richmond | StLouis
deriving DecidableEq, Repr, Fintype

/-- `production = ['Baltimore','Cleveland','Little Rock','Birmingham','Charleston']`. -/
def production : List P :=
  [.Baltimore, .Cleveland, .LittleRock, .Birmingham, .Charleston]

/-- `distribution = ['Columbia','Indianapolis','Lexington','Nashville','Richmond','St. Louis']`. -/
def distribution : List D :=
  [.Columbia, .Indianapolis, .Lexington, .Nashville, .Richmond, .StLouis]

/-- `gp.quicksum(f p for p in production)`. -/
def sumP (f : P → ℚ) : ℚ := (production.map f).sum

/-- `gp.quicksum(f d for d in distribution)`. -/
def sumD (f : D → ℚ) : ℚ := (distribution.map f).sum

/-- `max_prod = pd.Series([180,200,140,80,180], index = production)`. -/
def max_prod : P → ℚ
  | .Baltimore => 180
  | .Cleveland => 200
  | .LittleRock => 140
  | .Birmingham => 80
  | .Charleston => 180

/-- `n_demand = pd.Series([89,95,121,101,116,181], index = distribution)`. -/
def n_demand : D → ℚ
  | .Columbia => 89
  | .Indianapolis => 95
  | .Lexington => 121
  | .Nashville => 101
  | .Richmond => 116
  | .StLouis => 181

/-- `frac = 0.75`. -/
def frac : ℚ := 0.75

/-- The pairwise shipment costs `transp_cost` loaded from `cost.csv`
(values as displayed by the notebook's pivot of the cost series). -/
def transp_cost : P → D → ℚ
  | .Baltimore, .Columbia => 4.50
  | .Baltimore, .Indianapolis => 5.09
  | .Baltimore, .Lexington => 4.33
  | .Baltimore, .Nashville => 5.96
  | .Baltimore, .Richmond => 1.96
  | .Baltimore, .StLouis => 7.30
  | .Birmingham, .Columbia => 3.33
  | .Birmingham, .Indianapolis => 4.33
  | .Birmingham, .Lexington => 3.38
  | .Birmingham, .Nashville => 1.53
  | .Birmingham, .Richmond => 5.95
  | .Birmingham, .StLouis => 4.01
  | .Charleston, .Columbia => 3.02
  | .Charleston, .Indianapolis => 2.61
  | .Charleston, .Lexington => 1.61
  | .Charleston, .Nashville => 4.44
  | .Charleston, .Richmond => 2.36
  | .Charleston, .StLouis => 4.60
  | .Cleveland, .Columbia => 2.43
  | .Cleveland, .Indianapolis => 2.37
  | .Cleveland, .Lexington => 2.54
  | .Cleveland, .Nashville => 4.13
  | .Cleveland, .Richmond => 3.20
  | .Cleveland, .StLouis => 4.88
  | .LittleRock, .Columbia => 6.42
  | .LittleRock, .Indianapolis => 4.83
  | .LittleRock, .Lexington => 3.39
  | .LittleRock, .Nashville => 4.40
  | .LittleRock, .Richmond => 7.44
  | .LittleRock, .StLouis => 2.92

/-- Direction of a linear constraint (`<=` or `>=` in gurobipy). -/
inductive Sense where
  | le | ge
deriving DecidableEq, Repr

/-- Comparison of a constraint's left-hand side with its right-hand side. -/
def Sense.cmp : Sense → ℚ → ℚ → Prop
  | .le, a, r => a ≤ r
  | .ge, a, r => r ≤ a

instance Sense.cmp.decidable : (s : Sense) → (a r : ℚ) → Decidable (Sense.cmp s a r)
  | .le, a, r => inferInstanceAs (Decidable (a ≤ r))
  | .ge, a, r => inferInstanceAs (Decidable (r ≤ a))

/-- A linear constraint of the expansion model `m2`: coefficients for the
shipment variables `x[p,d]`, coefficients for the two binary expansion
variables `xprod[0], xprod[1]`, a sense, and a right-hand side. -/
structure Constr2 where
  cx : P → D → ℚ
  cb : Fin 2 → ℚ
  sense : Sense
  rhs : ℚ

/-- Value of the constraint's linear expression at a point. -/
def Constr2.lhs (c : Constr2) (x : P → D → ℚ) (b : Fin 2 → ℚ) : ℚ :=
  sumP (fun p => sumD (fun d => c.cx p d * x p d)) + c.cb 0 * b 0 + c.cb 1 * b 1

/-- The constraint holds at a point. -/
def Constr2.sat (c : Constr2) (x : P → D → ℚ) (b : Fin 2 → ℚ) : Prop :=
  Sense.cmp c.sense (c.lhs x b) c.rhs

instance (c : Constr2) (x : P → D → ℚ) (b : Fin 2 → ℚ) :
    Decidable (c.sat x b) :=
  Sense.cmp.decidable _ _ _

/-- `meet_demand = m2.addConstrs((gp.quicksum(x[p,d] for p in production)
>= n_demand[d] for d in distribution), name = 'meet_demand')`. -/
def meet_demand (dem : D → ℚ) : List Constr2 :=
  distribution.map fun d =>
    ⟨fun _ d' => if d' = d then 1 else 0, fun _ => 0, .ge, dem d⟩

/-- Modelled from the spec: the cell adding the `can_produce` upper capacity
constraints of `m2` for every facility other than Birmingham is empty; the
formulation is `Σ_d x[p,d] ≤ m_p` for `p ∈ P − {Birmingham}`. -/
def can_produce2 (maxp : P → ℚ) : List Constr2 :=
  (production.filter (· ≠ .Birmingham)).map fun p =>
    ⟨fun p' _ => if p' = p then 1 else 0, fun _ => 0, .le, maxp p⟩

/-- Modelled from the spec: the cell adding the `must_produce` lower capacity
constraints of `m2` for every facility other than Birmingham is empty; the
formulation is `Σ_d x[p,d] ≥ a·m_p` for `p ∈ P − {Birmingham}`. -/
def must_produce2 (maxp : P → ℚ) (fr : ℚ) : List Constr2 :=
  (production.filter (· ≠ .Birmingham)).map fun p =>
    ⟨fun p' _ => if p' = p then 1 else 0, fun _ => 0, .ge, fr * maxp p⟩

/-- The capacity increments of the two Birmingham expansion options. -/
def increment : Fin 2 → ℚ
  | 0 => 25
  | 1 => 50

/-- The activation costs of the two Birmingham expansion options
(objective coefficients of `xprod` given via `obj` in `addVars`). -/
def activation_cost : Fin 2 → ℚ
  | 0 => 50
  | 1 => 75

/-- Modelled from the spec: the cell adding Birmingham's expanded upper
capacity constraint is empty; the formulation is
`Σ_d x[B,d] ≤ m_B + 25·xprod_0 + 50·xprod_1`, normalised with the
expansion terms moved to the left-hand side. -/
def birmingham_can : (P → ℚ) → Constr2 := fun maxp =>
  ⟨fun p' _ => if p' = .Birmingham then 1 else 0,
   fun i => -(increment i), .le, maxp .Birmingham⟩

/-- Modelled from the spec: the cell adding Birmingham's expanded lower
capacity constraint is empty; the formulation is
`Σ_d x[B,d] ≥ a·(m_B + 25·xprod_0 + 50·xprod_1)`, normalised with the
expansion terms moved to the left-hand side. -/
def birmingham_must : (P → ℚ) → ℚ → Constr2 := fun maxp fr =>
  ⟨fun p' _ => if p' = .Birmingham then 1 else 0,
   fun i => -(fr * increment i), .ge, fr * maxp .Birmingham⟩

/-- Modelled from the spec: the cell adding the mutual-exclusion constraint
is empty; the formulation is `Σ_i xprod_i ≤ 1`. -/
def at_most_one : Constr2 :=
  ⟨fun _ _ => 0, fun _ => 1, .le, 1⟩

/-- All constraints of the expansion model `m2`, in the order the notebook
adds them: demand, non-Birmingham capacity, Birmingham expansion capacity,
mutual exclusion. -/
def m2_constrs (maxp : P → ℚ) (dem : D → ℚ) (fr : ℚ) : List Constr2 :=
  meet_demand dem ++ can_produce2 maxp ++ must_produce2 maxp fr ++
    [birmingham_can maxp, birmingham_must maxp fr, at_most_one]

/-- A point is a solution of `m2`: the shipment variables respect the
default lower bound 0 of `addVars`, the `xprod` variables are binary
(`vtype=GRB.BINARY`), and every constraint of the model holds. -/
def m2_feasible (maxp : P → ℚ) (dem : D → ℚ) (fr : ℚ)
    (x : P → D → ℚ) (b : Fin 2 → ℚ) : Prop :=
  (∀ p d, 0 ≤ x p d) ∧ (∀ i, b i = 0 ∨ b i = 1) ∧
    ∀ c ∈ m2_constrs maxp dem fr, c.sat x b

instance (maxp : P → ℚ) (dem : D → ℚ) (fr : ℚ) (x : P → D → ℚ)
    (b : Fin 2 → ℚ) : Decidable (m2_feasible maxp dem fr x b) :=
  inferInstanceAs (Decidable ((∀ p d, 0 ≤ x p d) ∧ (∀ i, b i = 0 ∨ b i = 1) ∧
    ∀ c ∈ m2_constrs maxp dem fr, c.sat x b))

/-- Objective of `m2`: the shipment variables carry objective coefficients
`transp_cost` (the `obj` argument of `addVars`); the `xprod` variables carry
activation costs 50 and 75 (modelled from the spec, their cell is empty). -/
def m2_obj (cst : P → D → ℚ) (x : P → D → ℚ) (b : Fin 2 → ℚ) : ℚ :=
  sumP (fun p => sumD (fun d => cst p d * x p d)) +
    (activation_cost 0 * b 0 + activation_cost 1 * b 1)

/-! ### The intended base model

The notebook's cells for the base model's variables, constraints and
objective are empty; the intended formulation is stated in the
surrounding markdown and in the spec.  The following definitions are the
base model as specified there. -/

/-- A linear constraint of the base model: coefficients for the shipment
variables only. -/
structure ConstrB where
  cx : P → D → ℚ
  sense : Sense
  rhs : ℚ

/-- Value of the base constraint's linear expression at a point. -/
def ConstrB.lhs (c : ConstrB) (x : P → D → ℚ) : ℚ :=
  sumP (fun p => sumD (fun d => c.cx p d * x p d))

/-- The base constraint holds at a point. -/
def ConstrB.sat (c : ConstrB) (x : P → D → ℚ) : Prop :=
  Sense.cmp c.sense (c.lhs x) c.rhs

instance (c : ConstrB) (x : P → D → ℚ) : Decidable (c.sat x) :=
  Sense.cmp.decidable _ _ _

/-- Modelled from the spec: the base model's demand constraints
(`Σ_p x[p,d] ≥ n_d` for every `d ∈ D`); their code cell is empty. -/
def meet_demandB (dem : D → ℚ) : List ConstrB :=
  distribution.map fun d =>
    ⟨fun _ d' => if d' = d then 1 else 0, .ge, dem d⟩

/-- Modelled from the spec: the base model's `can_produce` constraints
(`Σ_d x[p,d] ≤ m_p` for every `p ∈ P`); their code cell is empty. -/
def can_produceB (maxp : P → ℚ) : List ConstrB :=
  production.map fun p =>
    ⟨fun p' _ => if p' = p then 1 else 0, .le, maxp p⟩

/-- Modelled from the spec: the base model's `must_produce` constraints
(`Σ_d x[p,d] ≥ a·m_p` for every `p ∈ P`); their code cell is empty. -/
def must_produceB (maxp : P → ℚ) (fr : ℚ) : List ConstrB :=
  production.map fun p =>
    ⟨fun p' _ => if p' = p then 1 else 0, .ge, fr * maxp p⟩

/-- All constraints of the intended base model. -/
def base_constrs (maxp : P → ℚ) (dem : D → ℚ) (fr : ℚ) : List ConstrB :=
  meet_demandB dem ++ can_produceB maxp ++ must_produceB maxp fr

/-- A point is a solution of the intended base model: non-negative
shipments satisfying every constraint. -/
def base_feasible (maxp : P → ℚ) (dem : D → ℚ) (fr : ℚ)
    (x : P → D → ℚ) : Prop :=
  (∀ p d, 0 ≤ x p d) ∧ ∀ c ∈ base_constrs maxp dem fr, c.sat x

instance (maxp : P → ℚ) (dem : D → ℚ) (fr : ℚ) (x : P → D → ℚ) :
    Decidable (base_feasible maxp dem fr x) :=
  inferInstanceAs (Decidable ((∀ p d, 0 ≤ x p d) ∧
    ∀ c ∈ base_constrs maxp dem fr, c.sat x))

/-- Objective of the intended base model: `Σ_{p,d} c_{p,d}·x[p,d]`. -/
def base_obj (cst : P → D → ℚ) (x : P → D → ℚ) : ℚ :=
  sumP (fun p => sumD (fun d => cst p d * x p d))

/-- Total outbound shipment of facility `p` (`sol.groupby('production')`
aggregation in the notebook). -/
def prod_sum (x : P → D → ℚ) (p : P) : ℚ := sumD (fun d => x p d)

/-! ### The base model as actually built

The executed notebook runs `m = gp.Model('widgets')` and then, with the
variable/constraint/objective cells empty, calls `m.optimize()`.  The
model therefore has no decision variables and no constraints, whatever
the data cells (`max_prod`, `n_demand`, `transp_cost`, `frac`) contain. -/

/-- Number of decision variables of the model `m` actually built by the
executed cells; the `addVars` cells are empty, so it is 0 for every input. -/
def widgets_num_vars (maxp : P → ℚ) (dem : D → ℚ) (cst : P → D → ℚ)
    (fr : ℚ) : Nat := 0

/-- Number of constraints of the model `m` actually built by the executed
cells; the `addConstrs` cells are empty, so it is 0 for every input. -/
def widgets_num_constrs (maxp : P → ℚ) (dem : D → ℚ) (cst : P → D → ℚ)
    (fr : ℚ) : Nat := 0

/-- Solution space of the actually-built model `m`: it has no variables,
so a "solution" carries no data. -/
def widgets_feasible (maxp : P → ℚ) (dem : D → ℚ) (cst : P → D → ℚ)
    (fr : ℚ) : Unit → Prop := fun _ => True

/-- Objective of the actually-built model `m`: no objective was set, so
gurobipy minimises the constant 0. -/
def widgets_obj (maxp : P → ℚ) (dem : D → ℚ) (cst : P → D → ℚ)
    (fr : ℚ) : Unit → ℚ := fun _ => 0

/-! ### The solver contract -/

/-- Outcome of a solve, over a solution space `σ`.  Modelled from the
spec: `solve(model)` "returns an optimal solution (variable values,
objective value, per-constraint slack) or reports
infeasibility/unboundedness explicitly"; the three outcomes are distinct
constructors. -/
inductive SolveResult (σ : Type) where
  | optimal (sol : σ) (objVal : ℚ)
  | infeasible
  | unbounded
deriving DecidableEq

/-- Modelled from the spec: the contract of `solve` for a minimisation
model with feasibility predicate `Feas` and objective `objf`.  An
`optimal` outcome carries a feasible solution whose objective value is
reported exactly and is minimal; `infeasible` is reported only when no
feasible point exists; `unbounded` only when the objective decreases
without limit over the feasible set. -/
def ReportsCorrectly {σ : Type} (Feas : σ → Prop) (objf : σ → ℚ) :
    SolveResult σ → Prop
  | .optimal sol v => Feas sol ∧ v = objf sol ∧ ∀ y, Feas y → objf sol ≤ objf y
  | .infeasible => ¬ ∃ y, Feas y
  | .unbounded => ∀ M : ℚ, ∃ y, Feas y ∧ objf y < M

/-! ### Input validation of the model builder -/

/-- Modelled from the spec: a production facility record
(identifier and maximum production capacity). -/
structure Facility where
  name : String
  cap : ℚ
deriving DecidableEq, Repr

/-- Modelled from the spec: a distribution location record
(identifier and demand). -/
structure Location where
  name : String
  dem : ℚ
deriving DecidableEq, Repr

/-- Modelled from the spec: the configuration-error taxonomy of
`build_base_model` (empty input sets, `frac` outside `[0,1]`, negative
capacities or demands). -/
inductive ConfigError where
  | emptyFacilities
  | emptyLocations
  | fracOutOfRange
  | negativeCapacity
  | negativeDemand
deriving DecidableEq, Repr

/-- The validated data from which a base model is built. -/
structure BaseModelData where
  facilities : List Facility
  locations : List Location
  costs : String → String → ℚ
  fr : ℚ

/-- Modelled from the spec: `build_base_model(facilities, locations,
costs, frac)` "fails if any facility or location set is empty, or if
`frac` is outside [0,1]"; "negative capacities/demands → configuration
error".  The builder itself is absent from the notebook (the base model's
cells are empty), so only its validation contract is modelled; on success
it returns the validated model data. -/
def build_base_model (fac : List Facility) (loc : List Location)
    (costs : String → String → ℚ) (fr : ℚ) :
    Except ConfigError BaseModelData :=
  if fac = [] then .error .emptyFacilities
  else if loc = [] then .error .emptyLocations
  else if fr < 0 ∨ 1 < fr then .error .fracOutOfRange
  else if fac.any (fun f => f.cap < 0) then .error .negativeCapacity
  else if loc.any (fun l => l.dem < 0) then .error .negativeDemand
  else .ok ⟨fac, loc, costs, fr⟩

/-! ### Computation lemmas for the finite sums -/

theorem mem_production (p : P) : p ∈ production := by
  cases p <;> simp [production]

theorem mem_distribution (d : D) : d ∈ distribution := by
  cases d <;> simp [distribution]

theorem sumD_pick (g : D → ℚ) (d : D) :
    sumD (fun d' => if d' = d then g d' else 0) = g d := by
  cases d <;> simp [sumD, distribution]

theorem sumP_pick (h : P → ℚ) (p : P) :
    sumP (fun p' => if p' = p then h p' else 0) = h p := by
  cases p <;> simp [sumP, production]

theorem sumD_ite_const (c : Prop) [Decidable c] (g : D → ℚ) :
    sumD (fun d => if c then g d else 0) =
      if c then sumD (fun d => g d) else 0 := by
  split <;> simp [sumD, distribution]

theorem sumD_const_mul (c : ℚ) (g : D → ℚ) :
    sumD (fun d => c * g d) = c * sumD (fun d => g d) := by
  simp only [sumD, distribution, List.map_cons, List.map_nil, List.sum_cons,
    List.sum_nil]
  ring

theorem sumP_add (f g : P → ℚ) :
    sumP (fun p => f p + g p) = sumP (fun p => f p) + sumP (fun p => g p) := by
  simp only [sumP, production, List.map_cons, List.map_nil, List.sum_cons,
    List.sum_nil]
  ring

theorem sumD_add (f g : D → ℚ) :
    sumD (fun d => f d + g d) = sumD (fun d => f d) + sumD (fun d => g d) := by
  simp only [sumD, distribution, List.map_cons, List.map_nil, List.sum_cons,
    List.sum_nil]
  ring

theorem sumP_const_mul (c : ℚ) (g : P → ℚ) :
    sumP (fun p => c * g p) = c * sumP (fun p => g p) := by
  simp only [sumP, production, List.map_cons, List.map_nil, List.sum_cons,
    List.sum_nil]
  ring

theorem sumP_nonneg (f : P → ℚ) (h : ∀ p, 0 ≤ f p) : 0 ≤ sumP f := by
  simp only [sumP, production, List.map_cons, List.map_nil, List.sum_cons,
    List.sum_nil]
  have := h P.Baltimore
  have := h P.Cleveland
  have := h P.LittleRock
  have := h P.Birmingham
  have := h P.Charleston
  linarith

/-! ### Unfolding the constraint families -/

theorem meet_demand_sat_iff (dem : D → ℚ) (x : P → D → ℚ) (b : Fin 2 → ℚ) :
    (∀ c ∈ meet_demand dem, c.sat x b) ↔
      ∀ d, dem d ≤ sumP (fun p => x p d) := by
  unfold meet_demand
  rw [List.forall_mem_map]
  constructor
  · intro h d
    have h' := h d (mem_distribution d)
    simpa [Constr2.sat, Constr2.lhs, Sense.cmp, sumD_pick] using h'
  · intro h d _
    simpa [Constr2.sat, Constr2.lhs, Sense.cmp, sumD_pick] using h d

theorem can_produce2_sat_iff (maxp : P → ℚ) (x : P → D → ℚ) (b : Fin 2 → ℚ) :
    (∀ c ∈ can_produce2 maxp, c.sat x b) ↔
      ∀ p, p ≠ P.Birmingham → prod_sum x p ≤ maxp p := by
  unfold can_produce2
  rw [List.forall_mem_map]
  constructor
  · intro h p hp
    have h' := h p (by simp [List.mem_filter, mem_production, hp])
    simpa [Constr2.sat, Constr2.lhs, Sense.cmp, sumD_ite_const, sumP_pick,
      prod_sum] using h'
  · intro h p hp
    have hp' : p ≠ P.Birmingham := by
      simpa using (List.mem_filter.mp hp).2
    simpa [Constr2.sat, Constr2.lhs, Sense.cmp, sumD_ite_const, sumP_pick,
      prod_sum] using h p hp'

theorem must_produce2_sat_iff (maxp : P → ℚ) (fr : ℚ) (x : P → D → ℚ)
    (b : Fin 2 → ℚ) :
    (∀ c ∈ must_produce2 maxp fr, c.sat x b) ↔
      ∀ p, p ≠ P.Birmingham → fr * maxp p ≤ prod_sum x p := by
  unfold must_produce2
  rw [List.forall_mem_map]
  constructor
  · intro h p hp
    have h' := h p (by simp [List.mem_filter, mem_production, hp])
    simpa [Constr2.sat, Constr2.lhs, Sense.cmp, sumD_ite_const, sumP_pick,
      prod_sum] using h'
  · intro h p hp
    have hp' : p ≠ P.Birmingham := by
      simpa using (List.mem_filter.mp hp).2
    simpa [Constr2.sat, Constr2.lhs, Sense.cmp, sumD_ite_const, sumP_pick,
      prod_sum] using h p hp'

theorem birmingham_can_sat_iff (maxp : P → ℚ) (x : P → D → ℚ)
    (b : Fin 2 → ℚ) :
    (birmingham_can maxp).sat x b ↔
      prod_sum x P.Birmingham ≤
        maxp P.Birmingham + (increment 0 * b 0 + increment 1 * b 1) := by
  have hl : (birmingham_can maxp).lhs x b =
      prod_sum x P.Birmingham - (increment 0 * b 0 + increment 1 * b 1) := by
    simp [birmingham_can, Constr2.lhs, sumD_ite_const, sumP_pick, prod_sum,
      increment]
    ring
  have hr : (birmingham_can maxp).rhs = maxp P.Birmingham := rfl
  rw [Constr2.sat, hl, hr]
  show Sense.cmp .le _ _ ↔ _
  rw [Sense.cmp]
  constructor <;> intro h <;> linarith

theorem birmingham_must_sat_iff (maxp : P → ℚ) (fr : ℚ) (x : P → D → ℚ)
    (b : Fin 2 → ℚ) :
    (birmingham_must maxp fr).sat x b ↔
      fr * (maxp P.Birmingham + (increment 0 * b 0 + increment 1 * b 1)) ≤
        prod_sum x P.Birmingham := by
  have hl : (birmingham_must maxp fr).lhs x b =
      prod_sum x P.Birmingham -
        fr * (increment 0 * b 0 + increment 1 * b 1) := by
    simp [birmingham_must, Constr2.lhs, sumD_ite_const, sumP_pick, prod_sum,
      increment]
    ring
  have hr : (birmingham_must maxp fr).rhs = fr * maxp P.Birmingham := rfl
  rw [Constr2.sat, hl, hr]
  show Sense.cmp .ge _ _ ↔ _
  rw [Sense.cmp]
  constructor <;> intro h <;> linarith

theorem at_most_one_sat_iff (x : P → D → ℚ) (b : Fin 2 → ℚ) :
    at_most_one.sat x b ↔ b 0 + b 1 ≤ 1 := by
  have hl : at_most_one.lhs x b = b 0 + b 1 := by
    simp [at_most_one, Constr2.lhs, sumP, sumD, production, distribution]
  have hr : at_most_one.rhs = 1 := rfl
  rw [Constr2.sat, hl, hr]
  show Sense.cmp .le _ _ ↔ _
  rw [Sense.cmp]

/-- Unfolded form of the `m2` solution set. -/
theorem m2_feasible_iff (maxp : P → ℚ) (dem : D → ℚ) (fr : ℚ)
    (x : P → D → ℚ) (b : Fin 2 → ℚ) :
    m2_feasible maxp dem fr x b ↔
      (∀ p d, 0 ≤ x p d) ∧ (∀ i, b i = 0 ∨ b i = 1) ∧
      (∀ d, dem d ≤ sumP (fun p => x p d)) ∧
      (∀ p, p ≠ P.Birmingham → prod_sum x p ≤ maxp p) ∧
      (∀ p, p ≠ P.Birmingham → fr * maxp p ≤ prod_sum x p) ∧
      prod_sum x P.Birmingham ≤
        maxp P.Birmingham + (increment 0 * b 0 + increment 1 * b 1) ∧
      fr * (maxp P.Birmingham + (increment 0 * b 0 + increment 1 * b 1)) ≤
        prod_sum x P.Birmingham ∧
      b 0 + b 1 ≤ 1 := by
  unfold m2_feasible m2_constrs
  rw [List.forall_mem_append, List.forall_mem_append, List.forall_mem_append,
    List.forall_mem_cons, List.forall_mem_cons, List.forall_mem_cons,
    meet_demand_sat_iff, can_produce2_sat_iff, must_produce2_sat_iff,
    birmingham_can_sat_iff, birmingham_must_sat_iff, at_most_one_sat_iff]
  tauto

/-! ### Unfolding the base model -/

theorem meet_demandB_sat_iff (dem : D → ℚ) (x : P → D → ℚ) :
    (∀ c ∈ meet_demandB dem, c.sat x) ↔
      ∀ d, dem d ≤ sumP (fun p => x p d) := by
  unfold meet_demandB
  rw [List.forall_mem_map]
  constructor
  · intro h d
    have h' := h d (mem_distribution d)
    simpa [ConstrB.sat, ConstrB.lhs, Sense.cmp, sumD_pick] using h'
  · intro h d _
    simpa [ConstrB.sat, ConstrB.lhs, Sense.cmp, sumD_pick] using h d

theorem can_produceB_sat_iff (maxp : P → ℚ) (x : P → D → ℚ) :
    (∀ c ∈ can_produceB maxp, c.sat x) ↔
      ∀ p, prod_sum x p ≤ maxp p := by
  unfold can_produceB
  rw [List.forall_mem_map]
  constructor
  · intro h p
    have h' := h p (mem_production p)
    simpa [ConstrB.sat, ConstrB.lhs, Sense.cmp, sumD_ite_const, sumP_pick,
      prod_sum] using h'
  · intro h p _
    simpa [ConstrB.sat, ConstrB.lhs, Sense.cmp, sumD_ite_const, sumP_pick,
      prod_sum] using h p

theorem must_produceB_sat_iff (maxp : P → ℚ) (fr : ℚ) (x : P → D → ℚ) :
    (∀ c ∈ must_produceB maxp fr, c.sat x) ↔
      ∀ p, fr * maxp p ≤ prod_sum x p := by
  unfold must_produceB
  rw [List.forall_mem_map]
  constructor
  · intro h p
    have h' := h p (mem_production p)
    simpa [ConstrB.sat, ConstrB.lhs, Sense.cmp, sumD_ite_const, sumP_pick,
      prod_sum] using h'
  · intro h p _
    simpa [ConstrB.sat, ConstrB.lhs, Sense.cmp, sumD_ite_const, sumP_pick,
      prod_sum] using h p

theorem sumP_congr (f g : P → ℚ) (h : ∀ p, f p = g p) : sumP f = sumP g := by
  rw [show f = g from funext h]

theorem sumD_congr (f g : D → ℚ) (h : ∀ d, f d = g d) : sumD f = sumD g := by
  rw [show f = g from funext h]

/-- Unfolded form of the base model's solution set. -/
theorem base_feasible_iff (maxp : P → ℚ) (dem : D → ℚ) (fr : ℚ)
    (x : P → D → ℚ) :
    base_feasible maxp dem fr x ↔
      (∀ p d, 0 ≤ x p d) ∧
      (∀ d, dem d ≤ sumP (fun p => x p d)) ∧
      (∀ p, prod_sum x p ≤ maxp p) ∧
      (∀ p, fr * maxp p ≤ prod_sum x p) := by
  unfold base_feasible base_constrs
  rw [List.forall_mem_append, List.forall_mem_append,
    meet_demandB_sat_iff, can_produceB_sat_iff, must_produceB_sat_iff]
  tauto

/-! ### Optimal solutions -/

/-- `x` is an optimal solution of the base model. -/
def base_optimal (maxp : P → ℚ) (dem : D → ℚ) (fr : ℚ) (cst : P → D → ℚ)
    (x : P → D → ℚ) : Prop :=
  base_feasible maxp dem fr x ∧
    ∀ y, base_feasible maxp dem fr y → base_obj cst x ≤ base_obj cst y

/-- `(x, b)` is an optimal solution of the expansion model `m2`. -/
def m2_optimal (maxp : P → ℚ) (dem : D → ℚ) (fr : ℚ) (cst : P → D → ℚ)
    (x : P → D → ℚ) (b : Fin 2 → ℚ) : Prop :=
  m2_feasible maxp dem fr x b ∧
    ∀ y c, m2_feasible maxp dem fr y c → m2_obj cst x b ≤ m2_obj cst y c

/-! ### A concrete shipment plan for the notebook's scenario -/

/-- A concrete shipment plan for the notebook's data
(capacities `[180,200,140,80,180]`, demands `[89,95,121,101,116,181]`,
`frac = 0.75`); every facility produces within its bounds and every
location's demand is met exactly. -/
def x0 : P → D → ℚ
  | .Baltimore, .Columbia => 89
  | .Baltimore, .Indianapolis => 91
  | .Cleveland, .Indianapolis => 4
  | .Cleveland, .Lexington => 121
  | .Cleveland, .Nashville => 75
  | .LittleRock, .Nashville => 26
  | .LittleRock, .Richmond => 102
  | .Birmingham, .Richmond => 14
  | .Birmingham, .StLouis => 46
  | .Charleston, .StLouis => 135
  | _, _ => 0

theorem x0_base_feasible : base_feasible max_prod n_demand frac x0 := by
  rw [base_feasible_iff]
  refine ⟨fun p d => ?_, fun d => ?_, fun p => ?_, fun p => ?_⟩
  · cases p <;> cases d <;> norm_num [x0]
  · cases d <;> norm_num [x0, sumP, production, n_demand]
  · cases p <;> norm_num [x0, prod_sum, sumD, distribution, max_prod]
  · cases p <;> norm_num [x0, prod_sum, sumD, distribution, max_prod, frac]

theorem x0_m2_feasible : m2_feasible max_prod n_demand frac x0 (fun _ => 0) := by
  rw [m2_feasible_iff]
  refine ⟨fun p d => ?_, fun i => Or.inl rfl, fun d => ?_, fun p hp => ?_,
    fun p hp => ?_, ?_, ?_, by norm_num⟩
  · cases p <;> cases d <;> norm_num [x0]
  · cases d <;> norm_num [x0, sumP, production, n_demand]
  · cases p <;> norm_num [x0, prod_sum, sumD, distribution, max_prod]
  · cases p <;> norm_num [x0, prod_sum, sumD, distribution, max_prod, frac]
  · norm_num [x0, prod_sum, sumD, distribution, max_prod, increment]
  · norm_num [x0, prod_sum, sumD, distribution, max_prod, increment, frac]

/-! ### Relating the base and expansion models -/

/-- A base-feasible point, together with both expansion options switched
off, is feasible for the expansion model. -/
theorem base_to_m2 (maxp : P → ℚ) (dem : D → ℚ) (fr : ℚ) (x : P → D → ℚ)
    (h : base_feasible maxp dem fr x) :
    m2_feasible maxp dem fr x (fun _ => 0) := by
  rw [base_feasible_iff] at h
  rw [m2_feasible_iff]
  refine ⟨h.1, fun i => Or.inl rfl, h.2.1, fun p _ => h.2.2.1 p,
    fun p _ => h.2.2.2 p, ?_, ?_, by norm_num⟩
  · simpa using h.2.2.1 P.Birmingham
  · simpa using h.2.2.2 P.Birmingham

/-- With both options off, the `m2` objective is the base objective. -/
theorem m2_obj_b0 (cst : P → D → ℚ) (x : P → D → ℚ) :
    m2_obj cst x (fun _ => 0) = base_obj cst x := by
  unfold m2_obj base_obj
  ring

/-- The base objective vanishes under zero costs. -/
theorem base_obj_zero_cost (x : P → D → ℚ) :
    base_obj (fun _ _ => 0) x = 0 := by
  simp [base_obj, sumP, sumD, production, distribution]

/-- Under zero shipment costs, the `m2` objective of any solution is
non-negative (it is the activation cost of the chosen option). -/
theorem m2_obj_zero_cost_nonneg (maxp : P → ℚ) (dem : D → ℚ) (fr : ℚ)
    (y : P → D → ℚ) (c : Fin 2 → ℚ) (h : m2_feasible maxp dem fr y c) :
    (0 : ℚ) ≤ m2_obj (fun _ _ => 0) y c := by
  rw [m2_feasible_iff] at h
  have hb0 := h.2.1 0
  have hb1 := h.2.1 1
  have hz : m2_obj (fun _ _ => 0) y c =
      activation_cost 0 * c 0 + activation_cost 1 * c 1 := by
    simp [m2_obj, sumP, sumD, production, distribution]
  rw [hz]
  rcases hb0 with h0 | h0 <;> rcases hb1 with h1 | h1 <;>
    rw [h0, h1] <;> norm_num [activation_cost]

/-- `x0` is optimal for the base model under zero shipment costs. -/
theorem x0_base_optimal_zero_cost :
    base_optimal max_prod n_demand frac (fun _ _ => 0) x0 := by
  refine ⟨x0_base_feasible, fun y _ => ?_⟩
  rw [base_obj_zero_cost, base_obj_zero_cost]

/-- `(x0, 0)` is optimal for the expansion model under zero shipment
costs. -/
theorem x0_m2_optimal_zero_cost :
    m2_optimal max_prod n_demand frac (fun _ _ => 0) x0 (fun _ => 0) := by
  refine ⟨x0_m2_feasible, fun y c hy => ?_⟩
  rw [m2_obj_b0, base_obj_zero_cost]
  exact m2_obj_zero_cost_nonneg _ _ _ _ _ hy

/-! ### Convex combinations of shipment plans -/

theorem prod_sum_combo (x y : P → D → ℚ) (t : ℚ) (p : P) :
    prod_sum (fun p d => (1 - t) * x p d + t * y p d) p =
      (1 - t) * prod_sum x p + t * prod_sum y p := by
  simp only [prod_sum, sumD, distribution, List.map_cons, List.map_nil,
    List.sum_cons, List.sum_nil]
  ring

theorem col_sum_combo (x y : P → D → ℚ) (t : ℚ) (d : D) :
    sumP (fun p => (1 - t) * x p d + t * y p d) =
      (1 - t) * sumP (fun p => x p d) + t * sumP (fun p => y p d) := by
  simp only [sumP, production, List.map_cons, List.map_nil,
    List.sum_cons, List.sum_nil]
  ring

theorem base_obj_combo (cst x y : P → D → ℚ) (t : ℚ) :
    base_obj cst (fun p d => (1 - t) * x p d + t * y p d) =
      (1 - t) * base_obj cst x + t * base_obj cst y := by
  simp only [base_obj, sumP, sumD, production, distribution, List.map_cons,
    List.map_nil, List.sum_cons, List.sum_nil]
  ring

/-- If some solution of the expansion model costs strictly less than the
optimum of the base model, then Birmingham's upper capacity constraint is
binding at every base optimum.  (Otherwise a convex combination of the
base optimum with the cheaper expansion solution would stay base-feasible
and undercut the base optimum.) -/
theorem reduction_implies_binding (maxp : P → ℚ) (dem : D → ℚ) (fr : ℚ)
    (cst : P → D → ℚ) (hfr : 0 ≤ fr) (xs : P → D → ℚ)
    (hx : base_optimal maxp dem fr cst xs) (y : P → D → ℚ) (b : Fin 2 → ℚ)
    (hyf : m2_feasible maxp dem fr y b)
    (hred : m2_obj cst y b < base_obj cst xs) :
    prod_sum xs P.Birmingham = maxp P.Birmingham := by
  obtain ⟨hxf, hxopt⟩ := hx
  rw [base_feasible_iff] at hxf
  obtain ⟨hx0, hxdem, hxcan, hxmust⟩ := hxf
  rw [m2_feasible_iff] at hyf
  obtain ⟨hy0, hb, hydem, hycan, hymust, hyB, hyBm, hbsum⟩ := hyf
  have hb00 : 0 ≤ b 0 := by rcases hb 0 with h | h <;> rw [h] <;> norm_num
  have hb10 : 0 ≤ b 1 := by rcases hb 1 with h | h <;> rw [h] <;> norm_num
  have hact : 0 ≤ activation_cost 0 * b 0 + activation_cost 1 * b 1 := by
    have e0 : activation_cost 0 = 50 := rfl
    have e1 : activation_cost 1 = 75 := rfl
    rw [e0, e1]; linarith
  have hinc : 0 ≤ increment 0 * b 0 + increment 1 * b 1 := by
    have e0 : increment 0 = 25 := rfl
    have e1 : increment 1 = 50 := rfl
    rw [e0, e1]; linarith
  have hsplit : m2_obj cst y b =
      base_obj cst y + (activation_cost 0 * b 0 + activation_cost 1 * b 1) :=
    rfl
  have hylt : base_obj cst y < base_obj cst xs := by linarith
  by_contra hne
  have hslt : prod_sum xs P.Birmingham < maxp P.Birmingham :=
    lt_of_le_of_ne (hxcan _) hne
  by_cases hcase : prod_sum y P.Birmingham ≤ maxp P.Birmingham
  · -- the cheaper solution is itself base-feasible: contradiction
    have hybase : base_feasible maxp dem fr y := by
      rw [base_feasible_iff]
      refine ⟨hy0, hydem, fun p => ?_, fun p => ?_⟩
      · by_cases hp : p = P.Birmingham
        · rw [hp]; exact hcase
        · exact hycan p hp
      · by_cases hp : p = P.Birmingham
        · rw [hp]
          have hfrinc :
              0 ≤ fr * (increment 0 * b 0 + increment 1 * b 1) :=
            mul_nonneg hfr hinc
          have hexp :
              fr * (maxp P.Birmingham +
                  (increment 0 * b 0 + increment 1 * b 1)) =
                fr * maxp P.Birmingham +
                  fr * (increment 0 * b 0 + increment 1 * b 1) := by ring
          linarith
        · exact hymust p hp
    have := hxopt y hybase
    linarith
  · push_neg at hcase
    have hdenpos :
        0 < prod_sum y P.Birmingham - prod_sum xs P.Birmingham := by
      linarith
    set t : ℚ := (maxp P.Birmingham - prod_sum xs P.Birmingham) /
      (prod_sum y P.Birmingham - prod_sum xs P.Birmingham) with ht
    have ht0 : 0 < t := div_pos (by linarith) hdenpos
    have ht1 : t ≤ 1 := by
      rw [ht]
      exact (div_le_one hdenpos).mpr (by linarith)
    have htmul :
        t * (prod_sum y P.Birmingham - prod_sum xs P.Birmingham) =
          maxp P.Birmingham - prod_sum xs P.Birmingham := by
      rw [ht]
      exact div_mul_cancel₀ _ (ne_of_gt hdenpos)
    have hzB :
        prod_sum (fun p d => (1 - t) * xs p d + t * y p d) P.Birmingham =
          maxp P.Birmingham := by
      rw [prod_sum_combo]
      have hexp :
          (1 - t) * prod_sum xs P.Birmingham + t * prod_sum y P.Birmingham =
            prod_sum xs P.Birmingham +
              t * (prod_sum y P.Birmingham - prod_sum xs P.Birmingham) := by
        ring
      rw [hexp, htmul]
      ring
    have hzfeas :
        base_feasible maxp dem fr (fun p d => (1 - t) * xs p d + t * y p d) := by
      rw [base_feasible_iff]
      refine ⟨fun p d => ?_, fun d => ?_, fun p => ?_, fun p => ?_⟩
      · exact add_nonneg (mul_nonneg (by linarith) (hx0 p d))
          (mul_nonneg (le_of_lt ht0) (hy0 p d))
      · rw [col_sum_combo]
        have h1 := mul_le_mul_of_nonneg_left (hxdem d)
          (show (0 : ℚ) ≤ 1 - t by linarith)
        have h2 := mul_le_mul_of_nonneg_left (hydem d) (le_of_lt ht0)
        have h3 : (1 - t) * dem d + t * dem d = dem d := by ring
        linarith
      · by_cases hp : p = P.Birmingham
        · rw [hp, hzB]
        · rw [prod_sum_combo]
          have h1 := mul_le_mul_of_nonneg_left (hxcan p)
            (show (0 : ℚ) ≤ 1 - t by linarith)
          have h2 := mul_le_mul_of_nonneg_left (hycan p hp) (le_of_lt ht0)
          have h3 : (1 - t) * maxp p + t * maxp p = maxp p := by ring
          linarith
      · by_cases hp : p = P.Birmingham
        · rw [hp, hzB]
          have := hxmust P.Birmingham
          linarith
        · rw [prod_sum_combo]
          have h1 := mul_le_mul_of_nonneg_left (hxmust p)
            (show (0 : ℚ) ≤ 1 - t by linarith)
          have h2 := mul_le_mul_of_nonneg_left (hymust p hp) (le_of_lt ht0)
          have h3 : (1 - t) * (fr * maxp p) + t * (fr * maxp p) =
              fr * maxp p := by ring
          linarith
    have hge := hxopt _ hzfeas
    rw [base_obj_combo] at hge
    have h4 : t * base_obj cst y < t * base_obj cst xs :=
      mul_lt_mul_of_pos_left hylt ht0
    have h5 : (1 - t) * base_obj cst xs + t * base_obj cst xs =
        base_obj cst xs := by ring
    linarith

/-! ### An infeasible instance of the expansion model -/

/-- With zero capacities and a demand of 1000 everywhere, the expansion
model has no solution: even Birmingham's largest expansion caps total
production at 75. -/
theorem m2_infeasible_example :
    ¬ ∃ s : (P → D → ℚ) × (Fin 2 → ℚ),
      m2_feasible (fun _ => 0) (fun _ => 1000) frac s.1 s.2 := by
  rintro ⟨⟨x, b⟩, h⟩
  dsimp only at h
  rw [m2_feasible_iff] at h
  obtain ⟨h0, hb, hdem, hcan, hmust, hB, _, _⟩ := h
  have hb01 : b 0 ≤ 1 := by rcases hb 0 with h' | h' <;> rw [h'] <;> norm_num
  have hb11 : b 1 ≤ 1 := by rcases hb 1 with h' | h' <;> rw [h'] <;> norm_num
  have hxle : ∀ p, x p D.Columbia ≤ prod_sum x p := by
    intro p
    have h1 := h0 p D.Indianapolis
    have h2 := h0 p D.Lexington
    have h3 := h0 p D.Nashville
    have h4 := h0 p D.Richmond
    have h5 := h0 p D.StLouis
    simp only [prod_sum, sumD, distribution, List.map_cons, List.map_nil,
      List.sum_cons, List.sum_nil]
    linarith
  have hc1 : prod_sum x P.Baltimore ≤ 0 := by
    simpa using hcan P.Baltimore (by simp)
  have hc2 : prod_sum x P.Cleveland ≤ 0 := by
    simpa using hcan P.Cleveland (by simp)
  have hc3 : prod_sum x P.LittleRock ≤ 0 := by
    simpa using hcan P.LittleRock (by simp)
  have hc5 : prod_sum x P.Charleston ≤ 0 := by
    simpa using hcan P.Charleston (by simp)
  have hcB : prod_sum x P.Birmingham ≤ 25 * b 0 + 50 * b 1 := by
    have h' := hB
    simp only [increment] at h'
    linarith
  have hcol : (1000 : ℚ) ≤ sumP (fun p => x p D.Columbia) := hdem D.Columbia
  simp only [sumP, production, List.map_cons, List.map_nil, List.sum_cons,
    List.sum_nil] at hcol
  have e1 := hxle P.Baltimore
  have e2 := hxle P.Cleveland
  have e3 := hxle P.LittleRock
  have e4 := hxle P.Birmingham
  have e5 := hxle P.Charleston
  linarith

/-! ### Validation facts about the builder -/

/-- A successful build certifies every validated property of the input. -/
theorem build_base_model_ok_implies (fac : List Facility)
    (loc : List Location) (costs : String → String → ℚ) (fr : ℚ)
    (md : BaseModelData)
    (h : build_base_model fac loc costs fr = .ok md) :
    fac ≠ [] ∧ loc ≠ [] ∧ 0 ≤ fr ∧ fr ≤ 1 ∧
      (∀ f ∈ fac, 0 ≤ f.cap) ∧ ∀ l ∈ loc, 0 ≤ l.dem := by
  unfold build_base_model at h
  repeat' split at h
  any_goals exact Except.noConfusion h
  rename_i h1 h2 h3 h4 h5
  push_neg at h3
  simp only [List.any_eq_true, decide_eq_true_eq, not_exists, not_and,
    not_lt] at h4 h5
  exact ⟨h1, h2, h3.1, h3.2, h4, h5⟩

/-! ## Claims -/

/-- C1: the solve outcome for a built model is one of three distinct,
typed results; an `optimal` result always carries a feasible solution,
its exact objective value and an optimality guarantee, and an infeasible
or unbounded model is never reported through the `optimal` constructor
(in particular never as an "optimal solution with objective 0"). -/
theorem solve_outcome_sound (maxp : P → ℚ) (dem : D → ℚ) (fr : ℚ)
    (cst : P → D → ℚ) (r : SolveResult ((P → D → ℚ) × (Fin 2 → ℚ)))
    (hr : ReportsCorrectly (fun s => m2_feasible maxp dem fr s.1 s.2)
      (fun s => m2_obj cst s.1 s.2) r) :
    (∀ (s : (P → D → ℚ) × (Fin 2 → ℚ)) (v : ℚ), r = .optimal s v →
      m2_feasible maxp dem fr s.1 s.2 ∧ v = m2_obj cst s.1 s.2 ∧
        ∀ y : (P → D → ℚ) × (Fin 2 → ℚ),
          m2_feasible maxp dem fr y.1 y.2 → v ≤ m2_obj cst y.1 y.2) ∧
    ((¬ ∃ s : (P → D → ℚ) × (Fin 2 → ℚ), m2_feasible maxp dem fr s.1 s.2) →
      ∀ (s : (P → D → ℚ) × (Fin 2 → ℚ)) (v : ℚ), r ≠ .optimal s v) ∧
    ((∀ M : ℚ, ∃ s : (P → D → ℚ) × (Fin 2 → ℚ),
        m2_feasible maxp dem fr s.1 s.2 ∧ m2_obj cst s.1 s.2 < M) →
      ∀ (s : (P → D → ℚ) × (Fin 2 → ℚ)) (v : ℚ), r ≠ .optimal s v) ∧
    ∀ (s : (P → D → ℚ) × (Fin 2 → ℚ)) (v : ℚ),
      SolveResult.optimal s v ≠ .infeasible ∧
      SolveResult.optimal s v ≠ .unbounded ∧
      (SolveResult.infeasible :
        SolveResult ((P → D → ℚ) × (Fin 2 → ℚ))) ≠ .unbounded := by
  refine ⟨?_, ?_, ?_, fun s v => ⟨by simp, by simp, by simp⟩⟩
  · rintro s v rfl
    obtain ⟨h1, h2, h3⟩ := hr
    refine ⟨h1, h2, fun y hy => ?_⟩
    rw [h2]
    exact h3 y hy
  · rintro hne s v rfl
    exact hne ⟨s, hr.1⟩
  · rintro hub s v rfl
    obtain ⟨h1, h2, h3⟩ := hr
    obtain ⟨y, hy, hlt⟩ := hub (m2_obj cst s.1 s.2)
    exact absurd (h3 y hy) (not_le.mpr hlt)

/-- Witness for C1, at a concretely infeasible instance: the report for
that instance is `infeasible`, not an `optimal` result. -/
theorem solve_outcome_sound_witness :
    (SolveResult.infeasible :
        SolveResult ((P → D → ℚ) × (Fin 2 → ℚ))) ≠
      SolveResult.optimal (fun _ _ => 0, fun _ => 0) 0 :=
  (solve_outcome_sound (fun _ => 0) (fun _ => 1000) frac (fun _ _ => 0)
      .infeasible m2_infeasible_example).2.1 m2_infeasible_example
    (fun _ _ => 0, fun _ => 0) 0

/-- C2: every solution of the expansion model has non-negative shipment
values, and for every distribution location the shipments into it sum to
at least its demand. -/
theorem solutions_nonneg_meet_demand (maxp : P → ℚ) (dem : D → ℚ) (fr : ℚ)
    (x : P → D → ℚ) (b : Fin 2 → ℚ) (h : m2_feasible maxp dem fr x b) :
    (∀ p d, 0 ≤ x p d) ∧ ∀ d, dem d ≤ sumP (fun p => x p d) := by
  rw [m2_feasible_iff] at h
  exact ⟨h.1, h.2.2.1⟩

/-- Witness for C2 at the notebook's data and the concrete plan `x0`. -/
theorem solutions_nonneg_meet_demand_witness :
    (0 : ℚ) ≤ x0 P.Baltimore D.Columbia ∧
      n_demand D.Columbia ≤ sumP (fun p => x0 p D.Columbia) :=
  ⟨(solutions_nonneg_meet_demand max_prod n_demand frac x0 (fun _ => 0)
      x0_m2_feasible).1 P.Baltimore D.Columbia,
   (solutions_nonneg_meet_demand max_prod n_demand frac x0 (fun _ => 0)
      x0_m2_feasible).2 D.Columbia⟩

/-- C3: in every solution of the base model each facility's total
shipment lies in `[frac·capacity, capacity]`, and in every solution of
the expansion model the same holds, with the designated facility
(Birmingham) using the expanded bound
`capacity + Σ increment_i · choice_i` on both sides. -/
theorem production_sums_within_bounds (maxp : P → ℚ) (dem : D → ℚ)
    (fr : ℚ) :
    (∀ x, base_feasible maxp dem fr x →
      ∀ p, fr * maxp p ≤ prod_sum x p ∧ prod_sum x p ≤ maxp p) ∧
    (∀ x b, m2_feasible maxp dem fr x b →
      (∀ p, p ≠ P.Birmingham →
        fr * maxp p ≤ prod_sum x p ∧ prod_sum x p ≤ maxp p) ∧
      (fr * (maxp P.Birmingham + (increment 0 * b 0 + increment 1 * b 1)) ≤
          prod_sum x P.Birmingham ∧
        prod_sum x P.Birmingham ≤
          maxp P.Birmingham + (increment 0 * b 0 + increment 1 * b 1))) := by
  constructor
  · intro x hx
    rw [base_feasible_iff] at hx
    exact fun p => ⟨hx.2.2.2 p, hx.2.2.1 p⟩
  · intro x b hx
    rw [m2_feasible_iff] at hx
    exact ⟨fun p hp => ⟨hx.2.2.2.2.1 p hp, hx.2.2.2.1 p hp⟩,
      hx.2.2.2.2.2.2.1, hx.2.2.2.2.2.1⟩

/-- Witness for C3 at the notebook's data, the plan `x0`, and both
expansion options off. -/
theorem production_sums_within_bounds_witness :
    (frac * max_prod P.Baltimore ≤ prod_sum x0 P.Baltimore ∧
      prod_sum x0 P.Baltimore ≤ max_prod P.Baltimore) ∧
    (frac * (max_prod P.Birmingham + (increment 0 * 0 + increment 1 * 0)) ≤
        prod_sum x0 P.Birmingham ∧
      prod_sum x0 P.Birmingham ≤
        max_prod P.Birmingham + (increment 0 * 0 + increment 1 * 0)) :=
  ⟨(production_sums_within_bounds max_prod n_demand frac).1 x0
      x0_base_feasible P.Baltimore,
   ((production_sums_within_bounds max_prod n_demand frac).2 x0 (fun _ => 0)
      x0_m2_feasible).2⟩

/-- C4: the expansion model contains the mutual-exclusion constraint
`xprod_0 + xprod_1 ≤ 1`, and consequently no solution activates both
expansion options. -/
theorem at_most_one_option_active (maxp : P → ℚ) (dem : D → ℚ) (fr : ℚ) :
    at_most_one ∈ m2_constrs maxp dem fr ∧
    ∀ x b, m2_feasible maxp dem fr x b → ¬(b 0 = 1 ∧ b 1 = 1) := by
  constructor
  · unfold m2_constrs
    simp
  · intro x b h hb
    rw [m2_feasible_iff] at h
    have h1 := h.2.2.2.2.2.2.2
    rw [hb.1, hb.2] at h1
    norm_num at h1

/-- Witness for C4 at the notebook's data and the all-off choice. -/
theorem at_most_one_option_active_witness :
    at_most_one ∈ m2_constrs max_prod n_demand frac ∧
      ¬((0 : ℚ) = 1 ∧ (0 : ℚ) = 1) :=
  ⟨(at_most_one_option_active max_prod n_demand frac).1,
   (at_most_one_option_active max_prod n_demand frac).2 x0 (fun _ => 0)
      x0_m2_feasible⟩

/-- C5: the model builder rejects, with a configuration error and without
producing a model, every input whose facility or location set is empty,
whose `frac` lies outside `[0,1]`, or which contains a negative capacity
or demand. -/
theorem build_base_model_rejects_invalid (fac : List Facility)
    (loc : List Location) (costs : String → String → ℚ) (fr : ℚ)
    (h : fac = [] ∨ loc = [] ∨ fr < 0 ∨ 1 < fr ∨
      (∃ f ∈ fac, f.cap < 0) ∨ ∃ l ∈ loc, l.dem < 0) :
    (∃ e, build_base_model fac loc costs fr = .error e) ∧
      ∀ md, build_base_model fac loc costs fr ≠ .ok md := by
  have hok : ∀ md, build_base_model fac loc costs fr ≠ .ok md := by
    intro md hmd
    obtain ⟨h1, h2, h3, h4, h5, h6⟩ :=
      build_base_model_ok_implies fac loc costs fr md hmd
    rcases h with h | h | h | h | h | h
    · exact h1 h
    · exact h2 h
    · linarith
    · linarith
    · obtain ⟨f, hf, hfc⟩ := h
      have := h5 f hf
      linarith
    · obtain ⟨l, hl, hld⟩ := h
      have := h6 l hl
      linarith
  refine ⟨?_, hok⟩
  cases hb : build_base_model fac loc costs fr with
  | error e => exact ⟨e, rfl⟩
  | ok md => exact absurd hb (hok md)

/-- Witness for C5: the empty-facilities input is rejected. -/
theorem build_base_model_rejects_invalid_witness :
    build_base_model [] [] (fun _ _ => 0) frac ≠
      Except.ok ⟨[], [], fun _ _ => 0, frac⟩ :=
  (build_base_model_rejects_invalid [] [] (fun _ _ => 0) frac
      (Or.inl rfl)).2 ⟨[], [], fun _ _ => 0, frac⟩

/-- C6: the expansion model is the base model with Birmingham's capacity
replaced by `capacity + Σ increment_i · choice_i` in both capacity
constraints (increments 25 and 50), plus binary choices with the
at-most-one constraint; its objective is the base objective plus the
activation costs 50 and 75 of the chosen options. -/
theorem expansion_model_refines_base (maxp : P → ℚ) (dem : D → ℚ)
    (fr : ℚ) (cst : P → D → ℚ) (x : P → D → ℚ) (b : Fin 2 → ℚ) :
    (m2_feasible maxp dem fr x b ↔
      base_feasible
        (fun p => if p = P.Birmingham then
            maxp p + (increment 0 * b 0 + increment 1 * b 1) else maxp p)
        dem fr x ∧ (∀ i, b i = 0 ∨ b i = 1) ∧ b 0 + b 1 ≤ 1) ∧
    m2_obj cst x b = base_obj cst x +
      (activation_cost 0 * b 0 + activation_cost 1 * b 1) ∧
    increment 0 = 25 ∧ increment 1 = 50 ∧
    activation_cost 0 = 50 ∧ activation_cost 1 = 75 := by
  refine ⟨?_, rfl, rfl, rfl, rfl, rfl⟩
  rw [m2_feasible_iff, base_feasible_iff]
  constructor
  · rintro ⟨h0, hb, hd, hcan, hmust, hcB, hmB, h1⟩
    refine ⟨⟨h0, hd, fun p => ?_, fun p => ?_⟩, hb, h1⟩
    · by_cases hp : p = P.Birmingham
      · subst hp
        simpa using hcB
      · simpa [hp] using hcan p hp
    · by_cases hp : p = P.Birmingham
      · subst hp
        simpa using hmB
      · simpa [hp] using hmust p hp
  · rintro ⟨⟨h0, hd, hcan, hmust⟩, hb, h1⟩
    refine ⟨h0, hb, hd, fun p hp => ?_, fun p hp => ?_, ?_, ?_, h1⟩
    · simpa [hp] using hcan p
    · simpa [hp] using hmust p
    · simpa using hcan P.Birmingham
    · simpa using hmust P.Birmingham

/-- C7: the notebook's scenario (capacities `[180,200,140,80,180]`,
demands `[89,95,121,101,116,181]`, `frac = 0.75`) has total demand 703,
total capacity 780 and total minimum-required production 585, and the
base model is feasible. -/
theorem base_scenario_feasible :
    sumD n_demand = 703 ∧ sumP max_prod = 780 ∧
    sumP (fun p => frac * max_prod p) = 585 ∧
    (703 : ℚ) ≤ 780 ∧ (585 : ℚ) ≤ 703 ∧
    ∃ x, base_feasible max_prod n_demand frac x := by
  refine ⟨?_, ?_, ?_, by norm_num, by norm_num, ⟨x0, x0_base_feasible⟩⟩
  · norm_num [sumD, distribution, n_demand]
  · norm_num [sumP, production, max_prod]
  · norm_num [sumP, production, max_prod, frac]

/-- An optimal report under zero shipment costs: `(x0, all-off)` with
objective value 0. -/
theorem x0_reports_optimal_zero :
    ReportsCorrectly (fun s => m2_feasible max_prod n_demand frac s.1 s.2)
      (fun s => m2_obj (fun _ _ => 0) s.1 s.2)
      (.optimal (x0, fun _ => 0) 0) := by
  refine ⟨x0_m2_feasible, ?_, fun y hy => ?_⟩
  · show (0 : ℚ) = m2_obj (fun _ _ => 0) x0 (fun _ => 0)
    rw [m2_obj_b0, base_obj_zero_cost]
  · show m2_obj (fun _ _ => 0) x0 (fun _ => 0) ≤ _
    rw [m2_obj_b0, base_obj_zero_cost]
    exact m2_obj_zero_cost_nonneg _ _ _ _ _ hy

/-- C8: an optimal report's objective value is exactly the sum of
`cost × shipment` over the non-zero shipment entries of the extracted
solution, plus the activation costs of the selected options. -/
theorem reported_objective_recomputed (maxp : P → ℚ) (dem : D → ℚ)
    (fr : ℚ) (cst : P → D → ℚ)
    (r : SolveResult ((P → D → ℚ) × (Fin 2 → ℚ)))
    (s : (P → D → ℚ) × (Fin 2 → ℚ)) (v : ℚ)
    (hr : ReportsCorrectly (fun s => m2_feasible maxp dem fr s.1 s.2)
      (fun s => m2_obj cst s.1 s.2) r)
    (ho : r = .optimal s v) :
    v = sumP (fun p => sumD (fun d =>
        if s.1 p d = 0 then 0 else cst p d * s.1 p d)) +
      (activation_cost 0 * s.2 0 + activation_cost 1 * s.2 1) := by
  subst ho
  obtain ⟨_, hv, _⟩ := hr
  rw [hv]
  show m2_obj cst s.1 s.2 = _
  unfold m2_obj
  congr 1
  refine sumP_congr _ _ (fun p => sumD_congr _ _ (fun d => ?_))
  by_cases h : s.1 p d = 0
  · rw [if_pos h, h, mul_zero]
  · rw [if_neg h]

/-- Witness for C8 at the zero-cost optimal report of `(x0, all-off)`. -/
theorem reported_objective_recomputed_witness :
    (0 : ℚ) = sumP (fun p => sumD (fun d =>
        if x0 p d = 0 then 0 else (0 : ℚ) * x0 p d)) +
      (activation_cost 0 * 0 + activation_cost 1 * 0) :=
  reported_objective_recomputed max_prod n_demand frac (fun _ _ => 0)
    (.optimal (x0, fun _ => 0) 0) (x0, fun _ => 0) 0
    x0_reports_optimal_zero rfl

/-- C9: the optimal value of the expansion model never exceeds that of
the base model; and unless Birmingham's upper capacity constraint is
binding at the base optimum while the expansion strictly reduces the
cost, the two optimal values are equal. -/
theorem expansion_vs_base_objective (maxp : P → ℚ) (dem : D → ℚ)
    (fr : ℚ) (cst : P → D → ℚ) (hfr : 0 ≤ fr) (xs : P → D → ℚ)
    (hx : base_optimal maxp dem fr cst xs) (y : P → D → ℚ)
    (b : Fin 2 → ℚ) (hy : m2_optimal maxp dem fr cst y b) :
    m2_obj cst y b ≤ base_obj cst xs ∧
    (¬(prod_sum xs P.Birmingham = maxp P.Birmingham ∧
        m2_obj cst y b < base_obj cst xs) →
      m2_obj cst y b = base_obj cst xs) := by
  have hle : m2_obj cst y b ≤ base_obj cst xs := by
    have h := hy.2 xs (fun _ => 0) (base_to_m2 _ _ _ _ hx.1)
    rw [m2_obj_b0] at h
    exact h
  refine ⟨hle, fun hnot => ?_⟩
  by_cases hred : m2_obj cst y b < base_obj cst xs
  · exact absurd
      ⟨reduction_implies_binding maxp dem fr cst hfr xs hx y b hy.1 hred,
        hred⟩ hnot
  · exact le_antisymm hle (not_lt.mp hred)

/-- Witness for C9 at the notebook's data under zero shipment costs,
where `x0` and `(x0, all-off)` are optimal for the two models. -/
theorem expansion_vs_base_objective_witness :
    m2_obj (fun _ _ => 0) x0 (fun _ => 0) ≤ base_obj (fun _ _ => 0) x0 :=
  (expansion_vs_base_objective max_prod n_demand frac (fun _ _ => 0)
      (by norm_num [frac]) x0 x0_base_optimal_zero_cost x0 (fun _ => 0)
      x0_m2_optimal_zero_cost).1

/-- C10: the base model `m` actually built by the executed cells has no
decision variables and no constraints whatever the input data, and any
correct solver report for it is `optimal` with objective value 0. -/
theorem widgets_base_model_trivial (maxp : P → ℚ) (dem : D → ℚ)
    (cst : P → D → ℚ) (fr : ℚ) :
    widgets_num_vars maxp dem cst fr = 0 ∧
    widgets_num_constrs maxp dem cst fr = 0 ∧
    ReportsCorrectly (widgets_feasible maxp dem cst fr)
      (widgets_obj maxp dem cst fr) (.optimal () 0) ∧
    ∀ r, ReportsCorrectly (widgets_feasible maxp dem cst fr)
      (widgets_obj maxp dem cst fr) r → r = .optimal () 0 := by
  refine ⟨rfl, rfl, ⟨trivial, rfl, fun _ _ => le_refl 0⟩, fun r hr => ?_⟩
  cases r with
  | optimal s v =>
    obtain ⟨_, hv, _⟩ := hr
    cases s
    rw [hv]
    rfl
  | infeasible => exact absurd ⟨(), trivial⟩ hr
  | unbounded =>
    obtain ⟨y, _, hy⟩ := hr 0
    exact absurd (show (0 : ℚ) < 0 from hy) (lt_irrefl 0)

/-- Witness for C10 at the notebook's data: the trivial optimal report
is the only correct one. -/
theorem widgets_base_model_trivial_witness :
    (SolveResult.optimal () (0 : ℚ)) = SolveResult.optimal () 0 :=
  (widgets_base_model_trivial max_prod n_demand transp_cost frac).2.2.2
    (.optimal () 0)
    (widgets_base_model_trivial max_prod n_demand transp_cost frac).2.2.1
